import Mathlib

/-!
# Verification of the `exchange` Python SDK's real-time subsystem

A shallow embedding, in Lean 4, of the reference-counted WebSocket
subscription client (`packages/sdk-python/exchange_sdk/websocket.py`), the
reference cache (`cache.py`) and the atoms/display conversion layer
(`format.py`), together with proofs of the behavioural properties the
design document states about them.

Conventions of the embedding:
* Python `dict`s become association lists (`List (String × α)`) with
  first-match lookup, in-place overwrite and deletion — matching `dict`
  semantics (unique keys, insertion order preserved).
* The single wire connection is modelled by a Boolean `is_connected`
  (standing for `self._is_connected and self._ws and not self._ws.closed`);
  each call to the underlying `ws.send` takes an explicit Boolean outcome
  `ok`, `false` meaning the send raised.
* `async` methods that mutate the client become pure state-transition
  functions; interleavings of the cooperative tasks are modelled, where a
  claim needs them, as explicit action sequences over a small step function.
-/

namespace ExchangeSDK

/-! ## Wire frames (websocket.py / section 6 of the design)

Outbound messages are JSON objects
`{type, channel, market_id, user_address}` for (un)subscribe, `{type: "ping"}`
for liveness, plus arbitrary user-issued payloads that can sit in the queue. -/

inductive Frame where
  | subscribeF (channel : String) (market_id : Option String) (user_address : Option String)
  | unsubscribeF (channel : String) (market_id : Option String) (user_address : Option String)
  | ping
  | payload (body : String)
  deriving DecidableEq, Repr

/-! ## Association-list model of Python dictionaries -/

/-- `d.get(k)`: first entry with key `k`, if any. -/
def lookupKey {α : Type} (k : String) : List (String × α) → Option α
  | [] => none
  | p :: rest => if p.1 = k then some p.2 else lookupKey k rest

/-- `d[k] = v`: overwrite the entry for `k` in place, or append a new one. -/
def setKey {α : Type} (k : String) (v : α) : List (String × α) → List (String × α)
  | [] => [(k, v)]
  | p :: rest => if p.1 = k then (k, v) :: rest else p :: setKey k v rest

/-- `del d[k]`: drop the entry for `k` (first occurrence). -/
def eraseKey {α : Type} (k : String) : List (String × α) → List (String × α)
  | [] => []
  | p :: rest => if p.1 = k then rest else p :: eraseKey k rest

/-! ## Client state and `_send` (websocket.py) -/

/-- The parts of `WebSocketClient` state that the registry, queue and
connection logic read and write.  `wire_sent` records, oldest first, the
frames the transport accepted (successful `self._ws.send` calls). -/
structure ClientState where
  active_subscriptions : List (String × Nat)
  message_queue : List Frame
  wire_sent : List Frame
  is_connected : Bool
  deriving DecidableEq, Repr

/-- A fresh client (only the connection flag is left free: registry claims
hold whether or not the transport is up). -/
def initialClient (conn : Bool) : ClientState :=
  { active_subscriptions := [], message_queue := [], wire_sent := [], is_connected := conn }

/-- One call to `WebSocketClient._send` (websocket.py 205-215): while
disconnected the frame is appended to `_message_queue`; otherwise
`ws.send` is attempted, and on failure (`ok = false`) the frame is likewise
appended to the queue. -/
def sendMsg (ok : Bool) (message : Frame) (s : ClientState) : ClientState :=
  if s.is_connected = false then
    { s with message_queue := s.message_queue ++ [message] }
  else if ok then
    { s with wire_sent := s.wire_sent ++ [message] }
  else
    { s with message_queue := s.message_queue ++ [message] }

/-- Python string truthiness of `a or b` for an optional first operand:
`None` and `""` fall through. -/
def pyOr (a : Option String) (b : String) : String :=
  match a with
  | some s => if s = "" then b else s
  | none => b

/-- `WebSocketClient._get_subscription_key` (websocket.py 217-220):
`identifier = market_id or user_address or "global"`, key
`f"{channel}:{identifier}"`. -/
def getSubscriptionKey (channel : String) (market_id user_address : Option String) : String :=
  channel ++ ":" ++ pyOr market_id (pyOr user_address "global")

/-! ## `subscribe` / `unsubscribe` (websocket.py 222-285) -/

/-- `WebSocketClient.subscribe`: read the current reference count; send a
subscribe frame only when it is 0; then store count + 1. -/
def subscribe (ok : Bool) (channel : String) (market_id user_address : Option String)
    (s : ClientState) : ClientState :=
  let key := getSubscriptionKey channel market_id user_address
  let current_count := (lookupKey key s.active_subscriptions).getD 0
  let s1 :=
    if current_count = 0 then
      sendMsg ok (Frame.subscribeF channel market_id user_address) s
    else s
  { s1 with active_subscriptions := setKey key (current_count + 1) s1.active_subscriptions }

/-- `WebSocketClient.unsubscribe`: absent key is a no-op; count 1 sends an
unsubscribe frame and deletes the entry; otherwise store count - 1. -/
def unsubscribe (ok : Bool) (channel : String) (market_id user_address : Option String)
    (s : ClientState) : ClientState :=
  let key := getSubscriptionKey channel market_id user_address
  let current_count := (lookupKey key s.active_subscriptions).getD 0
  if current_count = 0 then s
  else
    let new_count := current_count - 1
    if new_count = 0 then
      let s1 := sendMsg ok (Frame.unsubscribeF channel market_id user_address) s
      { s1 with active_subscriptions := eraseKey key s1.active_subscriptions }
    else
      { s with active_subscriptions := setKey key new_count s.active_subscriptions }

/-! ## C1: frames issued across call sequences on one key

`subscribe`/`unsubscribe` route every frame through `_send`, which either
hands it to the wire or queues it; a frame is *issued* when either happens. -/

/-- All frames the client has issued: accepted by the wire plus still queued. -/
def issuedFrames (s : ClientState) : List Frame := s.wire_sent ++ s.message_queue

/-- Occurrences of the frame `f` in a frame list. -/
def countFrame (f : Frame) : List Frame → Nat
  | [] => 0
  | g :: rest => (if g = f then 1 else 0) + countFrame f rest

/-- One client call on a fixed subscription key; `ok` is the outcome the
embedded `ws.send` would have if one is attempted. -/
inductive RegOp where
  | sub (ok : Bool)
  | unsub (ok : Bool)
  deriving DecidableEq, Repr

/-- Run a sequence of `subscribe`/`unsubscribe` calls on one key. -/
def runOps (channel : String) (market_id user_address : Option String) :
    List RegOp → ClientState → ClientState
  | [], s => s
  | RegOp.sub ok :: ops, s =>
    runOps channel market_id user_address ops (subscribe ok channel market_id user_address s)
  | RegOp.unsub ok :: ops, s =>
    runOps channel market_id user_address ops (unsubscribe ok channel market_id user_address s)

/-- The specification's net reference count after the calls, starting from
`c`: `subscribe` adds one, `unsubscribe` removes one and is a no-op at zero
(truncated subtraction). -/
def netFrom (c : Nat) : List RegOp → Nat
  | [] => c
  | RegOp.sub _ :: ops => netFrom (c + 1) ops
  | RegOp.unsub _ :: ops => netFrom (c - 1) ops

/-- How many times the reference-count trajectory rises from 0 to 1. -/
def risesFrom (c : Nat) : List RegOp → Nat
  | [] => 0
  | RegOp.sub _ :: ops => (if c = 0 then 1 else 0) + risesFrom (c + 1) ops
  | RegOp.unsub _ :: ops => risesFrom (c - 1) ops

/-- How many times the reference-count trajectory returns to 0. -/
def dropsFrom (c : Nat) : List RegOp → Nat
  | [] => 0
  | RegOp.sub _ :: ops => dropsFrom (c + 1) ops
  | RegOp.unsub _ :: ops => (if c = 1 then 1 else 0) + dropsFrom (c - 1) ops

/-! ## C2: the outbound-queue flush loop in `_connect` (websocket.py 96-99)

`while self._message_queue: msg = self._message_queue.pop(0); await self._send(msg)`,
run with the client connected, so each iteration attempts the wire send and,
on failure, `_send` *appends* the frame back to `_message_queue`. -/

/-- The flush loop, with one wire outcome per iteration; the loop is cut off
(as at its `await` suspension point) when the outcome stream runs out.
Returns (remaining queue, frames sent on the wire in order). -/
def flushQueue : List Bool → List Frame → List Frame × List Frame
  | _, [] => ([], [])
  | [], q => (q, [])
  | ok :: oks, msg :: q =>
    if ok then
      let r := flushQueue oks q
      (r.1, msg :: r.2)
    else
      flushQueue oks (q ++ [msg])

/-! ## C4: `_resubscribe_all` and the successful-connect order
(websocket.py 79-108, 185-203) -/

/-- Split a character list at the first `':'` (absent: everything goes left). -/
def splitKeyChars : List Char → List Char × List Char
  | [] => ([], [])
  | c :: rest =>
    if c = ':' then ([], rest)
    else
      let r := splitKeyChars rest
      (c :: r.1, r.2)

/-- `key.split(":", 1)` for the colon-containing keys
`_get_subscription_key` builds: the channel part before the first colon, and
the identifier — the rest of the key, inner colons preserved. -/
def splitKey (key : String) : String × String :=
  (String.mk (splitKeyChars key.data).1, String.mk (splitKeyChars key.data).2)

/-- The subscribe frame `_resubscribe_all` rebuilds from a stored key
(websocket.py 195-200): `market_id` for the trades/orderbook channels,
`user_address` for the user channel. -/
def resubFrame (key : String) : Frame :=
  Frame.subscribeF (splitKey key).1
    (if (splitKey key).1 = "trades" ∨ (splitKey key).1 = "orderbook"
     then some (splitKey key).2 else none)
    (if (splitKey key).1 = "user" then some (splitKey key).2 else none)

/-- `_resubscribe_all` (websocket.py 185-203): one subscribe frame per stored
key, in registry (insertion) order.  The early return on an empty registry
issues the same frames — none. -/
def resubscribeAll (subs : List (String × Nat)) : List Frame :=
  subs.map (fun p => resubFrame p.1)

/-- Events of one successful `_connect`, in program order. -/
inductive ConnectEvent where
  | sent (f : Frame)
  | startPingLoop
  | startReceiveLoop
  deriving DecidableEq, Repr

/-- The successful branch of `_connect` (websocket.py 86-103) as the ordered
event trace it produces when every wire send succeeds: replay the registry,
flush the queue, then start the ping and receive loops. -/
def connectSuccessTrace (s : ClientState) : List ConnectEvent :=
  (resubscribeAll s.active_subscriptions).map ConnectEvent.sent
    ++ ((flushQueue (List.replicate s.message_queue.length true) s.message_queue).2).map
        ConnectEvent.sent
    ++ [ConnectEvent.startPingLoop, ConnectEvent.startReceiveLoop]

/-- The registry's standing invariant: unique keys, positive stored counts.
Every reachable registry satisfies it: entries are created at count 1,
incremented, and deleted on the step that would reach 0 (`runOps_spec`). -/
def RegistryInv (l : List (String × Nat)) : Prop :=
  (l.map Prod.fst).Nodup ∧ ∀ p ∈ l, 0 < p.2

/-! ## C8: the backoff delay table (websocket.py 53, 171-183) -/

/-- `reconnect_delays or [1, 2, 4, 8, 16]` in `__init__` (websocket.py 53):
both `None` and the (falsy) empty list select the default table.  Delays are
exact rationals standing for the Python floats, exact at these values. -/
def initReconnectDelays (arg : Option (List ℚ)) : List ℚ :=
  match arg with
  | none => [1, 2, 4, 8, 16]
  | some l => if l = [] then [1, 2, 4, 8, 16] else l

/-- The delay computation in `_schedule_reconnect` (websocket.py 176-177):
`delay_index = min(self._reconnect_attempt, len(self.reconnect_delays) - 1)`,
`delay = self.reconnect_delays[delay_index]`. -/
def backoffDelay (reconnect_delays : List ℚ) (attempt : Nat) : ℚ :=
  reconnect_delays.getD (min attempt (reconnect_delays.length - 1)) 0

/-! ## C3: `close` versus a pending reconnect
(websocket.py 77, 105-108, 171-183, 545-577)

`__init__` (line 77) spawns `_connect` as a task that is stored nowhere; on
a connect failure that task runs `_schedule_reconnect`, which checks
`_should_reconnect` once, sleeps for the backoff delay, then increments the
attempt counter and calls `_connect` — without re-checking the flag (and
`_connect` never consults it).  `close` sets `_should_reconnect = False`
and cancels `_ping_task`, `_receive_task` and `_reconnect_task`; but no
code path ever assigns `_reconnect_task` (websocket.py initialises it to
`None` on line 59 and only reads it in `close`), so a sleeping backoff in
the untracked task is not cancelled. -/

/-- Program counter of the `__init__`-spawned connect/reconnect task. -/
inductive TaskPC where
  | connecting
  | schedCheck
  | sleeping
  | stopped
  deriving DecidableEq, Repr

/-- The reconnection-relevant state: the `_should_reconnect` flag, the
`_reconnect_task` slot (the handle `close` cancels — never written, so
always `none`), the untracked task's program counter, and counters for
backoff attempts and for `websockets.connect` calls begun. -/
structure ReconnectSys where
  should_reconnect : Bool
  reconnect_task : Option Unit
  auto_pc : TaskPC
  reconnect_attempt : Nat
  connect_calls : Nat
  deriving DecidableEq, Repr

/-- Scheduler events, each one atomic slice of the Python code between
`await` suspension points. -/
inductive RAction where
  | connectFail
  | schedProceed
  | sleepElapse
  | closeCall
  deriving DecidableEq, Repr

/-- One step.
* `connectFail`: `websockets.connect` raised; `_connect`'s `except` branch
  enters `_schedule_reconnect`.
* `schedProceed`: the `if not self._should_reconnect: return` check at the
  top of `_schedule_reconnect`; if the flag is up, suspend in
  `asyncio.sleep(delay)`.
* `sleepElapse`: the sleep returns; `self._reconnect_attempt += 1` and
  `await self._connect()` begins a new connection attempt.
* `closeCall`: `close()` sets `_should_reconnect = False` and would cancel
  the task stored in `_reconnect_task` — there never is one, so the
  sleeping task is untouched. -/
def rstep (s : ReconnectSys) : RAction → ReconnectSys
  | RAction.connectFail =>
    if s.auto_pc = TaskPC.connecting then { s with auto_pc := TaskPC.schedCheck } else s
  | RAction.schedProceed =>
    if s.auto_pc = TaskPC.schedCheck then
      if s.should_reconnect then { s with auto_pc := TaskPC.sleeping }
      else { s with auto_pc := TaskPC.stopped }
    else s
  | RAction.sleepElapse =>
    if s.auto_pc = TaskPC.sleeping then
      { s with auto_pc := TaskPC.connecting,
               reconnect_attempt := s.reconnect_attempt + 1,
               connect_calls := s.connect_calls + 1 }
    else s
  | RAction.closeCall =>
    match s.reconnect_task with
    | some _ => { s with should_reconnect := false, auto_pc := TaskPC.stopped }
    | none => { s with should_reconnect := false }

/-- The state right after `__init__`: flag up, no stored reconnect task, the
auto-connect task inside its first connection attempt. -/
def initReconnectSys : ReconnectSys :=
  { should_reconnect := true, reconnect_task := none, auto_pc := TaskPC.connecting,
    reconnect_attempt := 0, connect_calls := 1 }

def runReconnect (acts : List RAction) : ReconnectSys :=
  acts.foldl rstep initReconnectSys

/-! ## C7: handler-failure isolation in `_handle_message` (websocket.py 131-149) -/

/-- An inbound decoded message: its `"type"` tag (`message.get("type")`,
`none` when absent) and an opaque body. -/
structure InMessage where
  type : Option String
  body : String
  deriving DecidableEq, Repr

/-- Whether an `Except`-modelled call raised. -/
def raisedOn {ε α : Type} (e : Except ε α) : Bool :=
  match e with
  | Except.ok _ => false
  | Except.error _ => true

/-- One iteration of the handler loop — `try: result = handler(message) …
except Exception as e: self.logger.error(...)`: an exception becomes a log
entry, never an escape.  Returns the log entries added. -/
def runHandler (msg_type : String) (msg : InMessage)
    (h : InMessage → Except String Unit) : List String :=
  match h msg with
  | Except.ok _ => []
  | Except.error e => ["Error in " ++ msg_type ++ " handler: " ++ e]

/-- The loop over `list(self._handlers[msg_type])`: every handler is called
in turn, each inside its own try/except.  Returns (number of handlers
invoked, log). -/
def dispatchHandlers (msg_type : String) (msg : InMessage) :
    List (InMessage → Except String Unit) → Nat × List String
  | [] => (0, [])
  | h :: hs =>
    let logs := runHandler msg_type msg h
    let r := dispatchHandlers msg_type msg hs
    (r.1 + 1, logs ++ r.2)

/-- Result of `_handle_message`: how many handlers ran, the log, and whether
the message was consumed as a pong. -/
structure DispatchResult where
  invoked : Nat
  log : List String
  pongSeen : Bool
  deriving DecidableEq, Repr

/-- `_handle_message` (websocket.py 131-149): a `"pong"` only refreshes the
liveness timestamp; otherwise, when the tag is truthy (non-`None`,
non-empty) and registered, every registered handler is invoked.  The
function is total: no handler exception escapes the dispatch step. -/
def handleMessage (handlers : List (String × List (InMessage → Except String Unit)))
    (msg : InMessage) : DispatchResult :=
  match msg.type with
  | none => ⟨0, [], false⟩
  | some t =>
    if t = "pong" then ⟨0, [], true⟩
    else if t = "" then ⟨0, [], false⟩
    else
      match lookupKey t handlers with
      | some hs =>
        let r := dispatchHandlers t msg hs
        ⟨r.1, r.2, false⟩
      | none => ⟨0, [], false⟩

/-! ## Cache model (cache.py), for C10 and the C9 gate -/

/-- `Token` (types.py 52-57). -/
structure Token where
  ticker : String
  decimals : Int
  name : String
  deriving DecidableEq, Repr

/-- `Market` (types.py 60-70). -/
structure Market where
  id : String
  base_ticker : String
  quote_ticker : String
  tick_size : String
  lot_size : String
  min_size : String
  maker_fee_bps : Int
  taker_fee_bps : Int
  deriving DecidableEq, Repr

/-- `CacheService` state (cache.py 11-21): the two dictionaries and the
`_initialized` flag. -/
structure CacheState where
  tokens_cache : List (String × Token)
  markets_cache : List (String × Market)
  initialized : Bool
  deriving DecidableEq, Repr

/-- The state `CacheService.__init__` builds. -/
def CacheState.empty : CacheState :=
  { tokens_cache := [], markets_cache := [], initialized := false }

/-- `set_tokens` (cache.py 25-35): clear, then insert each token by ticker. -/
def CacheState.set_tokens (c : CacheState) (tokens : List Token) : CacheState :=
  { c with tokens_cache := tokens.foldl (fun acc t => setKey t.ticker t acc) [] }

/-- `set_markets` (cache.py 67-77): clear, then insert each market by id. -/
def CacheState.set_markets (c : CacheState) (markets : List Market) : CacheState :=
  { c with markets_cache := markets.foldl (fun acc m => setKey m.id m acc) [] }

/-- `is_ready` (cache.py 109-116): `self._initialized and
len(self._tokens_cache) > 0 and len(self._markets_cache) > 0`. -/
def CacheState.is_ready (c : CacheState) : Bool :=
  c.initialized && decide (0 < c.tokens_cache.length) && decide (0 < c.markets_cache.length)

/-- `mark_initialized` (cache.py 118-123). -/
def CacheState.mark_initialized (c : CacheState) : CacheState :=
  { c with initialized := true }

/-- `clear` (cache.py 125-130): empty both dictionaries, drop the flag. -/
def CacheState.clear (c : CacheState) : CacheState :=
  { c with tokens_cache := [], markets_cache := [], initialized := false }

/-- A call against the cache's mutating interface. -/
inductive CacheOp where
  | setTokensOp (tokens : List Token)
  | setMarketsOp (markets : List Market)
  | markInitializedOp
  | clearOp
  deriving Repr

def applyCacheOp (c : CacheState) : CacheOp → CacheState
  | CacheOp.setTokensOp l => c.set_tokens l
  | CacheOp.setMarketsOp l => c.set_markets l
  | CacheOp.markInitializedOp => c.mark_initialized
  | CacheOp.clearOp => c.clear

/-- A call history against a freshly constructed cache. -/
def runCacheOps (ops : List CacheOp) : CacheState :=
  ops.foldl applyCacheOp CacheState.empty

/-- Spec-side reading of the flag over a call history: `mark_initialized`
has been called since the last `clear`. -/
def markedSinceClear (ops : List CacheOp) : Bool :=
  ops.foldl
    (fun b op =>
      match op with
      | CacheOp.markInitializedOp => true
      | CacheOp.clearOp => false
      | _ => b)
    false

/-! ## C9: the `on_trades` handler's cache gate (websocket.py 331-359) -/

/-- Logger levels (logger.py). -/
inductive LogLevel where
  | debug
  | info
  | warn
  | error
  deriving DecidableEq, Repr

/-- The fields of an inbound frame that `trade_handler` inspects before the
enhancement step: `msg.get("type")` and
`msg.get("trade", {}).get("market_id")` (`none` when absent). -/
structure WsInbound where
  type : Option String
  trade_market_id : Option String
  deriving DecidableEq, Repr

/-- The `trade_handler` closure that `on_trades` registers (websocket.py
331-359).  `enhanceResult` stands for the `ws_trade` field extraction plus
`self.enhancer.enhance_ws_trade(ws_trade)`, `.error` when either raises
(missing field or missing reference data); `α` is the enhanced payload.
Returns the value handed to the user handler (when it is invoked at all)
and the log entries recorded; the closure is total — nothing propagates. -/
def tradeHandler {α : Type} (cache : CacheState) (market_id : String) (msg : WsInbound)
    (enhanceResult : Except String α) : Option α × List (LogLevel × String) :=
  if msg.type ≠ some "trade" then (none, [])
  else if msg.trade_market_id ≠ some market_id then (none, [])
  else if cache.is_ready = false then
    (none, [(LogLevel.warn, "Trade received before cache initialized, skipping")])
  else
    match enhanceResult with
    | Except.ok t => (some t, [])
    | Except.error e => (none, [(LogLevel.error, "Failed to enhance trade: " ++ e)])

/-! ## C5: atoms / display round trip (format.py 9-22, 97-111)

`Decimal` construction from a string or an int is exact; every `Decimal`
*arithmetic result* is rounded to the default context's 28 significant
digits (`ROUND_HALF_EVEN`), and `float(...)` returns the binary64 nearest
the exact decimal value (ties to even).  Both roundings are embedded as
computable functions on `ℚ`. -/

/-- Truncation toward zero: the semantics of Python's `int(Decimal)`. -/
def truncToInt (q : ℚ) : Int :=
  q.num.tdiv (q.den : Int)

/-- Round a rational to the nearest integer, ties to the even integer: used
to state what a value reads as "at N decimal places". -/
def roundHalfEven (s : ℚ) : Int :=
  if s - (⌊s⌋ : ℚ) < 1 / 2 then ⌊s⌋
  else if (1 : ℚ) / 2 < s - (⌊s⌋ : ℚ) then ⌊s⌋ + 1
  else if ⌊s⌋ % 2 = 0 then ⌊s⌋ else ⌊s⌋ + 1

/-- Fueled exponent search in base `b` over the positive fraction `n / d`:
scale the fraction into `[1, b)` and report the exponent `e` with
`b^e ≤ n/d < b^(e+1)`.  Fuel 1100 covers the whole binary64 exponent range,
400 every decimal magnitude arising here; the arithmetic stays on `Nat` so
every instance evaluates by `decide`. -/
def findExpND (b : Nat) : Nat → Nat → Nat → Int → Int
  | 0, _, _, e => e
  | fuel + 1, n, d, e =>
    if n < d then findExpND b fuel (n * b) d (e - 1)
    else if d * b ≤ n then findExpND b fuel n (d * b) (e + 1)
    else e

/-- Round the fraction `n / d` (`0 < d`) to the nearest integer, ties to the
even integer — the rounding used both by `decimal`'s default
`ROUND_HALF_EVEN` context and by IEEE-754 binary64.  `f` is the floor,
`r` the remainder in `[0, d)`. -/
def roundHalfEvenND (n : Int) (d : Nat) : Int :=
  let f := n.fdiv (d : Int)
  let r := n - f * (d : Int)
  if 2 * r < (d : Int) then f
  else if (d : Int) < 2 * r then f + 1
  else if f % 2 = 0 then f else f + 1

/-- Round the positive fraction `n / d` to 28 significant decimal digits,
half-even: what Python's default `decimal` context does to an arithmetic
result whose exact coefficient is longer (a result of at most 28
significant digits passes through unchanged). -/
def decimal28ND (n d : Nat) : ℚ :=
  let k := findExpND 10 400 n d 0
  let m :=
    if 0 ≤ 27 - k then roundHalfEvenND ((n : Int) * (10 : Int) ^ (27 - k).toNat) d
    else roundHalfEvenND (n : Int) (d * 10 ^ (k - 27).toNat)
  (m : ℚ) * (10 : ℚ) ^ (k - 27)

/-- The 28-significant-digit context rounding on `ℚ`, via the reduced
numerator and denominator, extended by sign symmetry (half-even rounding is
symmetric under negation). -/
def decimalRound28 (q : ℚ) : ℚ :=
  if q = 0 then 0
  else if q < 0 then - decimal28ND q.num.natAbs q.den
  else decimal28ND q.num.natAbs q.den

/-- The binary64 double nearest the positive fraction `n / d`, ties to
even: round to 53 significand bits at the binary exponent of `n / d`.
(Normal range only — no overflow or subnormal handling; token amounts sit
far inside it.) -/
def float64ND (n d : Nat) : ℚ :=
  let e := findExpND 2 1100 n d 0
  let m :=
    if 0 ≤ 52 - e then roundHalfEvenND ((n : Int) * (2 : Int) ^ (52 - e).toNat) d
    else roundHalfEvenND (n : Int) (d * 2 ^ (e - 52).toNat)
  (m : ℚ) * (2 : ℚ) ^ (e - 52)

/-- `float(·)` of an exact decimal value: the nearest binary64, extended to
all of `ℚ` by sign symmetry. -/
def floatRoundNearest (q : ℚ) : ℚ :=
  if q = 0 then 0
  else if q < 0 then - float64ND q.num.natAbs q.den
  else float64ND q.num.natAbs q.den

/-- The `raw / divisor` step of `to_display_value` (format.py 20-22): the
Decimal quotient, correctly rounded to the 28-digit context (`Decimal(atoms)`
and `Decimal(10 ** decimals)` themselves are exact). -/
def to_display_decimal (atoms : Int) (decimals : Nat) : ℚ :=
  decimalRound28 ((atoms : ℚ) / ((10 : ℚ) ^ decimals))

/-- `to_display_value(atoms, decimals)` (format.py 9-22):
`float(Decimal(atoms) / Decimal(10 ** decimals))` — the context-rounded
Decimal quotient, cast to the nearest binary64. -/
def to_display_value (atoms : Int) (decimals : Nat) : ℚ :=
  floatRoundNearest (to_display_decimal atoms decimals)

/-- `to_atoms(value, decimals)` (format.py 97-111):
`int(Decimal(str(value)) * Decimal(10 ** decimals))` — the construction and
the power are exact, the product is rounded by the 28-digit context, and
`int()` truncates toward zero. -/
def to_atoms (value : ℚ) (decimals : Nat) : Int :=
  truncToInt (decimalRound28 (value * ((10 : ℚ) ^ decimals)))

/-- Digits of a non-negative integer literal (none on empty or non-digit). -/
def digitsToNat (cs : List Char) : Option Nat :=
  if cs = [] then none
  else
    cs.foldl
      (fun acc c =>
        match acc with
        | none => none
        | some n => if c.isDigit then some (n * 10 + (c.toNat - 48)) else none)
      (some 0)

/-- Split a character list at the first `'.'`. -/
def splitAtDot : List Char → List Char × Option (List Char)
  | [] => ([], none)
  | c :: rest =>
    if c = '.' then ([], some rest)
    else
      let r := splitAtDot rest
      (c :: r.1, r.2)

/-- `Decimal(s)` for a non-negative decimal literal `intpart[.fracpart]`,
as an exact rational. -/
def parseDecimal (s : String) : Option ℚ :=
  match splitAtDot s.data with
  | (ip, none) => (digitsToNat ip).map (fun n => (n : ℚ))
  | (ip, some fp) =>
    match digitsToNat ip, digitsToNat fp with
    | some i, some f => some ((i : ℚ) + (f : ℚ) / ((10 : ℚ) ^ fp.length))
    | _, _ => none

/-! ## Theorems -/

theorem lookupKey_setKey_self {α : Type} (k : String) (v : α) (l : List (String × α)) :
    lookupKey k (setKey k v l) = some v := by
  induction l with
  | nil => simp [setKey, lookupKey]
  | cons p rest ih =>
    by_cases h : p.1 = k
    · simp [setKey, h, lookupKey]
    · simp [setKey, h, lookupKey, ih]

theorem lookupKey_eq_none_of_not_mem {α : Type} (k : String) (l : List (String × α))
    (h : k ∉ l.map Prod.fst) : lookupKey k l = none := by
  induction l with
  | nil => rfl
  | cons p rest ih =>
    simp only [List.map_cons, List.mem_cons] at h
    push_neg at h
    have hpk : p.1 ≠ k := fun hh => h.1 hh.symm
    simp [lookupKey, hpk, ih h.2]

theorem mem_keys_of_lookupKey_some {α : Type} (k : String) (v : α) (l : List (String × α))
    (h : lookupKey k l = some v) : k ∈ l.map Prod.fst := by
  induction l with
  | nil => simp [lookupKey] at h
  | cons p rest ih =>
    by_cases hpk : p.1 = k
    · simp [hpk]
    · simp only [lookupKey, hpk, if_false] at h
      simp [ih h]

theorem lookupKey_eraseKey_self {α : Type} (k : String) (l : List (String × α))
    (hnd : (l.map Prod.fst).Nodup) : lookupKey k (eraseKey k l) = none := by
  induction l with
  | nil => rfl
  | cons p rest ih =>
    simp only [List.map_cons, List.nodup_cons] at hnd
    by_cases hpk : p.1 = k
    · have : k ∉ rest.map Prod.fst := hpk ▸ hnd.1
      simp [eraseKey, hpk, lookupKey_eq_none_of_not_mem k rest this]
    · simp [eraseKey, hpk, lookupKey, ih hnd.2]

theorem mem_keys_setKey {α : Type} (a k : String) (v : α) (l : List (String × α)) :
    a ∈ (setKey k v l).map Prod.fst ↔ a = k ∨ a ∈ l.map Prod.fst := by
  induction l with
  | nil => simp [setKey]
  | cons p rest ih =>
    by_cases hpk : p.1 = k
    · subst hpk
      simp [setKey]
    · simp only [setKey, hpk, if_false, List.map_cons, List.mem_cons, ih]
      tauto

theorem nodup_keys_setKey {α : Type} (k : String) (v : α) (l : List (String × α))
    (hnd : (l.map Prod.fst).Nodup) : ((setKey k v l).map Prod.fst).Nodup := by
  induction l with
  | nil => simp [setKey]
  | cons p rest ih =>
    simp only [List.map_cons, List.nodup_cons] at hnd
    by_cases hpk : p.1 = k
    · subst hpk
      simpa [setKey] using hnd
    · simp only [setKey, hpk, if_false, List.map_cons, List.nodup_cons]
      refine ⟨fun hmem => ?_, ih hnd.2⟩
      rcases (mem_keys_setKey p.1 k v rest).1 hmem with h | h
      · exact hpk h
      · exact hnd.1 h

theorem eraseKey_sublist {α : Type} (k : String) (l : List (String × α)) :
    (eraseKey k l).Sublist l := by
  induction l with
  | nil => simp [eraseKey]
  | cons p rest ih =>
    by_cases hpk : p.1 = k
    · simp only [eraseKey, hpk, if_pos rfl]
      exact List.sublist_cons_self p rest
    · simp only [eraseKey, hpk, if_false]
      exact List.Sublist.cons₂ p ih

theorem nodup_keys_eraseKey {α : Type} (k : String) (l : List (String × α))
    (hnd : (l.map Prod.fst).Nodup) : ((eraseKey k l).map Prod.fst).Nodup :=
  hnd.sublist ((eraseKey_sublist k l).map Prod.fst)

/-- **C6.** Calling `unsubscribe` on a key that is absent from the registry
(reference count 0) is a no-op: the state — registry, outbound queue, wire
history — is unchanged, no frame is sent or queued, and (the embedding being
a total function) no exception is raised. -/
theorem unsubscribe_absent_is_noop (ok : Bool) (channel : String)
    (market_id user_address : Option String) (s : ClientState)
    (h : lookupKey (getSubscriptionKey channel market_id user_address) s.active_subscriptions
        = none) :
    unsubscribe ok channel market_id user_address s = s := by
  simp [unsubscribe, h]

/-- **C6 witness**: a fresh client that never subscribed to
`trades:BTC/USDC`; unsubscribing from it leaves the client untouched. -/
theorem unsubscribe_absent_is_noop_witness :
    unsubscribe true "trades" (some "BTC/USDC") none (initialClient false)
      = initialClient false :=
  unsubscribe_absent_is_noop true "trades" (some "BTC/USDC") none (initialClient false) rfl

theorem countFrame_append (f : Frame) (a b : List Frame) :
    countFrame f (a ++ b) = countFrame f a + countFrame f b := by
  induction a with
  | nil => simp [countFrame]
  | cons g rest ih =>
    show (if g = f then 1 else 0) + countFrame f (rest ++ b)
        = ((if g = f then 1 else 0) + countFrame f rest) + countFrame f b
    rw [ih]
    omega

theorem sendMsg_active (ok : Bool) (f : Frame) (s : ClientState) :
    (sendMsg ok f s).active_subscriptions = s.active_subscriptions := by
  unfold sendMsg
  split
  · rfl
  · split <;> rfl

theorem issuedFrames_sendMsg (ok : Bool) (f g : Frame) (s : ClientState) :
    countFrame g (issuedFrames (sendMsg ok f s))
      = countFrame g (issuedFrames s) + countFrame g [f] := by
  unfold sendMsg
  split
  · show countFrame g (s.wire_sent ++ (s.message_queue ++ [f]))
        = countFrame g (issuedFrames s) + countFrame g [f]
    rw [← List.append_assoc, countFrame_append]
    rfl
  · split
    · show countFrame g ((s.wire_sent ++ [f]) ++ s.message_queue)
          = countFrame g (issuedFrames s) + countFrame g [f]
      simp only [issuedFrames, countFrame_append]
      omega
    · show countFrame g (s.wire_sent ++ (s.message_queue ++ [f]))
          = countFrame g (issuedFrames s) + countFrame g [f]
      rw [← List.append_assoc, countFrame_append]
      rfl

theorem subscribe_active (ok : Bool) (channel : String) (market_id user_address : Option String)
    (s : ClientState) :
    (subscribe ok channel market_id user_address s).active_subscriptions
      = setKey (getSubscriptionKey channel market_id user_address)
          ((lookupKey (getSubscriptionKey channel market_id user_address)
              s.active_subscriptions).getD 0 + 1)
          s.active_subscriptions := by
  unfold subscribe
  by_cases h : (lookupKey (getSubscriptionKey channel market_id user_address)
      s.active_subscriptions).getD 0 = 0
  · simp [h, sendMsg_active]
  · simp [h]

theorem subscribe_issued (ok : Bool) (channel : String) (market_id user_address : Option String)
    (s : ClientState) (g : Frame) :
    countFrame g (issuedFrames (subscribe ok channel market_id user_address s))
      = countFrame g (issuedFrames s)
        + (if (lookupKey (getSubscriptionKey channel market_id user_address)
              s.active_subscriptions).getD 0 = 0
           then countFrame g [Frame.subscribeF channel market_id user_address]
           else 0) := by
  unfold subscribe
  by_cases h : (lookupKey (getSubscriptionKey channel market_id user_address)
      s.active_subscriptions).getD 0 = 0
  · simp only [h, if_pos rfl, issuedFrames]
    exact issuedFrames_sendMsg ok _ g s
  · simp [h, issuedFrames]

theorem unsubscribe_active (ok : Bool) (channel : String) (market_id user_address : Option String)
    (s : ClientState) :
    (unsubscribe ok channel market_id user_address s).active_subscriptions
      = (if (lookupKey (getSubscriptionKey channel market_id user_address)
            s.active_subscriptions).getD 0 = 0
         then s.active_subscriptions
         else if (lookupKey (getSubscriptionKey channel market_id user_address)
            s.active_subscriptions).getD 0 - 1 = 0
         then eraseKey (getSubscriptionKey channel market_id user_address) s.active_subscriptions
         else setKey (getSubscriptionKey channel market_id user_address)
            ((lookupKey (getSubscriptionKey channel market_id user_address)
                s.active_subscriptions).getD 0 - 1)
            s.active_subscriptions) := by
  unfold unsubscribe
  by_cases h0 : (lookupKey (getSubscriptionKey channel market_id user_address)
      s.active_subscriptions).getD 0 = 0
  · simp [h0]
  · by_cases h1 : (lookupKey (getSubscriptionKey channel market_id user_address)
        s.active_subscriptions).getD 0 - 1 = 0
    · simp [h0, h1, sendMsg_active]
    · simp [h0, h1]

theorem unsubscribe_issued (ok : Bool) (channel : String) (market_id user_address : Option String)
    (s : ClientState) (g : Frame) :
    countFrame g (issuedFrames (unsubscribe ok channel market_id user_address s))
      = countFrame g (issuedFrames s)
        + (if (lookupKey (getSubscriptionKey channel market_id user_address)
              s.active_subscriptions).getD 0 = 0
           then 0
           else if (lookupKey (getSubscriptionKey channel market_id user_address)
              s.active_subscriptions).getD 0 - 1 = 0
           then countFrame g [Frame.unsubscribeF channel market_id user_address]
           else 0) := by
  unfold unsubscribe
  by_cases h0 : (lookupKey (getSubscriptionKey channel market_id user_address)
      s.active_subscriptions).getD 0 = 0
  · simp [h0]
  · by_cases h1 : (lookupKey (getSubscriptionKey channel market_id user_address)
        s.active_subscriptions).getD 0 - 1 = 0
    · simp only [h0, h1, if_neg h0, if_pos rfl, issuedFrames]
      exact issuedFrames_sendMsg ok _ g s
    · simp [h0, h1, issuedFrames]

/-- The inductive heart of C1: from any client state whose registry has
no duplicate keys and holds the fixed key with count `c` (absent iff
`c = 0`), a call sequence leaves the key at `netFrom c ops` (absent iff
zero) and issues exactly the 0-to-1 rises as subscribe frames and the
returns-to-0 as unsubscribe frames. -/
theorem runOps_spec (channel : String) (market_id user_address : Option String)
    (ops : List RegOp) :
    ∀ (s : ClientState) (c : Nat),
      (s.active_subscriptions.map Prod.fst).Nodup →
      lookupKey (getSubscriptionKey channel market_id user_address) s.active_subscriptions
        = (if c = 0 then none else some c) →
      (lookupKey (getSubscriptionKey channel market_id user_address)
          (runOps channel market_id user_address ops s).active_subscriptions
        = (if netFrom c ops = 0 then none else some (netFrom c ops)))
      ∧ ((runOps channel market_id user_address ops s).active_subscriptions.map Prod.fst).Nodup
      ∧ countFrame (Frame.subscribeF channel market_id user_address)
          (issuedFrames (runOps channel market_id user_address ops s))
        = countFrame (Frame.subscribeF channel market_id user_address) (issuedFrames s)
          + risesFrom c ops
      ∧ countFrame (Frame.unsubscribeF channel market_id user_address)
          (issuedFrames (runOps channel market_id user_address ops s))
        = countFrame (Frame.unsubscribeF channel market_id user_address) (issuedFrames s)
          + dropsFrom c ops := by
  induction ops with
  | nil =>
    intro s c hnd hl
    simp [runOps, netFrom, risesFrom, dropsFrom, hl, hnd]
  | cons op ops ih =>
    intro s c hnd hl
    have hc : (lookupKey (getSubscriptionKey channel market_id user_address)
        s.active_subscriptions).getD 0 = c := by
      rw [hl]
      by_cases h : c = 0 <;> simp [h]
    cases op with
    | sub ok =>
      have hsubs := subscribe_active ok channel market_id user_address s
      rw [hc] at hsubs
      have hlook : lookupKey (getSubscriptionKey channel market_id user_address)
          (subscribe ok channel market_id user_address s).active_subscriptions
          = (if c + 1 = 0 then none else some (c + 1)) := by
        rw [hsubs, lookupKey_setKey_self]
        simp
      have hnd' : ((subscribe ok channel market_id user_address
          s).active_subscriptions.map Prod.fst).Nodup := by
        rw [hsubs]
        exact nodup_keys_setKey _ _ _ hnd
      obtain ⟨H1, H2, H3, H4⟩ := ih (subscribe ok channel market_id user_address s) (c + 1)
        hnd' hlook
      have hsc := subscribe_issued ok channel market_id user_address s
        (Frame.subscribeF channel market_id user_address)
      have huc := subscribe_issued ok channel market_id user_address s
        (Frame.unsubscribeF channel market_id user_address)
      rw [hc] at hsc huc
      refine ⟨H1, H2, ?_, ?_⟩
      · show countFrame _ (issuedFrames (runOps channel market_id user_address ops
            (subscribe ok channel market_id user_address s))) = _
        rw [H3, hsc]
        by_cases h : c = 0
        · simp [h, risesFrom, countFrame]
          omega
        · simp [h, risesFrom, countFrame]
      · show countFrame _ (issuedFrames (runOps channel market_id user_address ops
            (subscribe ok channel market_id user_address s))) = _
        rw [H4, huc]
        by_cases h : c = 0 <;> simp [h, dropsFrom, countFrame]
    | unsub ok =>
      have hsubs := unsubscribe_active ok channel market_id user_address s
      rw [hc] at hsubs
      have hsc := unsubscribe_issued ok channel market_id user_address s
        (Frame.subscribeF channel market_id user_address)
      have huc := unsubscribe_issued ok channel market_id user_address s
        (Frame.unsubscribeF channel market_id user_address)
      rw [hc] at hsc huc
      by_cases h0 : c = 0
      · subst h0
        have heq : unsubscribe ok channel market_id user_address s = s := by
          simp [unsubscribe, hc]
        simp only [runOps, heq]
        obtain ⟨H1, H2, H3, H4⟩ := ih s 0 hnd hl
        refine ⟨?_, H2, ?_, ?_⟩
        · simpa [netFrom] using H1
        · simpa [risesFrom] using H3
        · simpa [dropsFrom] using H4
      · by_cases h1 : c - 1 = 0
        · simp only [if_neg h0, if_pos h1] at hsubs hsc huc
          have hlook : lookupKey (getSubscriptionKey channel market_id user_address)
              (unsubscribe ok channel market_id user_address s).active_subscriptions
              = (if (0 : Nat) = 0 then none else some 0) := by
            rw [hsubs, lookupKey_eraseKey_self _ _ hnd]
            simp
          have hnd' : ((unsubscribe ok channel market_id user_address
              s).active_subscriptions.map Prod.fst).Nodup := by
            rw [hsubs]
            exact nodup_keys_eraseKey _ _ hnd
          obtain ⟨H1, H2, H3, H4⟩ := ih (unsubscribe ok channel market_id user_address s) 0
            hnd' hlook
          refine ⟨?_, H2, ?_, ?_⟩
          · show lookupKey _ (runOps channel market_id user_address ops
                (unsubscribe ok channel market_id user_address s)).active_subscriptions = _
            rw [H1]
            simp [netFrom, h1]
          · show countFrame _ (issuedFrames (runOps channel market_id user_address ops
                (unsubscribe ok channel market_id user_address s))) = _
            rw [H3, hsc]
            simp [risesFrom, h1, countFrame]
          · show countFrame _ (issuedFrames (runOps channel market_id user_address ops
                (unsubscribe ok channel market_id user_address s))) = _
            rw [H4, huc]
            have hc1 : c = 1 := by omega
            simp [dropsFrom, h1, hc1, countFrame]
            omega
        · simp only [if_neg h0, if_neg h1] at hsubs hsc huc
          have hlook : lookupKey (getSubscriptionKey channel market_id user_address)
              (unsubscribe ok channel market_id user_address s).active_subscriptions
              = (if c - 1 = 0 then none else some (c - 1)) := by
            rw [hsubs, lookupKey_setKey_self]
            simp [h1]
          have hnd' : ((unsubscribe ok channel market_id user_address
              s).active_subscriptions.map Prod.fst).Nodup := by
            rw [hsubs]
            exact nodup_keys_setKey _ _ _ hnd
          obtain ⟨H1, H2, H3, H4⟩ := ih (unsubscribe ok channel market_id user_address s) (c - 1)
            hnd' hlook
          have hcne1 : c ≠ 1 := by omega
          refine ⟨?_, H2, ?_, ?_⟩
          · show lookupKey _ (runOps channel market_id user_address ops
                (unsubscribe ok channel market_id user_address s)).active_subscriptions = _
            rw [H1]
            simp [netFrom]
          · show countFrame _ (issuedFrames (runOps channel market_id user_address ops
                (unsubscribe ok channel market_id user_address s))) = _
            rw [H3, hsc]
            simp [risesFrom]
          · show countFrame _ (issuedFrames (runOps channel market_id user_address ops
                (unsubscribe ok channel market_id user_address s))) = _
            rw [H4, huc]
            simp [dropsFrom, hcne1]

/-- **C1.** Over every sequence of `subscribe`/`unsubscribe` calls on the
same subscription key (whatever the wire outcomes and connection status),
the registry holds an entry for the key iff the net reference count is
positive — and that entry stores exactly the net count; exactly one
subscribe frame is issued per rise of the count from 0 to 1 (repeat
subscribes issue nothing), and exactly one unsubscribe frame per return of
the count to 0 (at which point the entry is removed, the lookup reading
`none`). -/
theorem refcount_registry_invariant (channel : String) (market_id user_address : Option String)
    (conn : Bool) (ops : List RegOp) :
    ((lookupKey (getSubscriptionKey channel market_id user_address)
        (runOps channel market_id user_address ops
          (initialClient conn)).active_subscriptions).isSome
      ↔ 0 < netFrom 0 ops)
    ∧ (lookupKey (getSubscriptionKey channel market_id user_address)
        (runOps channel market_id user_address ops
          (initialClient conn)).active_subscriptions).getD 0
      = netFrom 0 ops
    ∧ countFrame (Frame.subscribeF channel market_id user_address)
        (issuedFrames (runOps channel market_id user_address ops (initialClient conn)))
      = risesFrom 0 ops
    ∧ countFrame (Frame.unsubscribeF channel market_id user_address)
        (issuedFrames (runOps channel market_id user_address ops (initialClient conn)))
      = dropsFrom 0 ops := by
  obtain ⟨H1, H2, H3, H4⟩ := runOps_spec channel market_id user_address ops (initialClient conn) 0
    (by simp [initialClient]) (by simp [initialClient, lookupKey])
  refine ⟨?_, ?_, ?_, ?_⟩
  · rw [H1]
    by_cases h : netFrom 0 ops = 0 <;> simp [h, Nat.pos_of_ne_zero]
  · rw [H1]
    by_cases h : netFrom 0 ops = 0 <;> simp [h]
  · rw [H3]
    simp [initialClient, issuedFrames, countFrame]
  · rw [H4]
    simp [initialClient, issuedFrames, countFrame]

theorem flushQueue_all_ok (q : List Frame) :
    flushQueue (List.replicate q.length true) q = ([], q) := by
  induction q with
  | nil => rfl
  | cons m q ih => simp [flushQueue, List.replicate_succ, ih]

theorem flushQueue_perm (oks : List Bool) : ∀ q : List Frame,
    ((flushQueue oks q).2 ++ (flushQueue oks q).1).Perm q := by
  induction oks with
  | nil =>
    intro q
    cases q with
    | nil => simp [flushQueue]
    | cons m q => simp [flushQueue]
  | cons ok oks ih =>
    intro q
    cases q with
    | nil => simp [flushQueue]
    | cons m q =>
      cases ok with
      | true => simpa [flushQueue] using (ih q).cons m
      | false => simpa [flushQueue] using (ih (q ++ [m])).trans (List.perm_append_singleton m q)

/-- **C2 counterexample.** Flush the queue `[A, B]` with the send of `A`
failing (the loop then pausing): the remaining queue is `[B, A]`, not the
original order `[A, B]` — the failed frame has been re-appended *behind* the
frame that was enqueued after it; and if the later sends succeed, delivery
order is `B` then `A`. -/
theorem flush_failed_send_reorders_queue :
    (flushQueue [false] [Frame.payload "A", Frame.payload "B"]).1
        = [Frame.payload "B", Frame.payload "A"]
      ∧ (flushQueue [false] [Frame.payload "A", Frame.payload "B"]).1
        ≠ [Frame.payload "A", Frame.payload "B"]
      ∧ (flushQueue [false, true, true] [Frame.payload "A", Frame.payload "B"]).2
        = [Frame.payload "B", Frame.payload "A"] := by
  decide

/-- **C2 (amended).** The outbound queue is FIFO while sends succeed:
messages enqueued while disconnected are sent on reconnect in their original
enqueue order (and a frame sent while connected is appended to the wire after
them).  If a send fails mid-flush, the failed frame is re-appended to the
*back* of the queue and the loop continues: no frame is lost — the frames
sent plus the remaining queue are a permutation of the original queue — but
the remaining queue holds the failed frame behind the frames queued after
it, not in the original order. -/
theorem flush_queue_fifo_amended :
    (∀ q : List Frame, flushQueue (List.replicate q.length true) q = ([], q))
    ∧ (∀ (oks : List Bool) (m : Frame) (q : List Frame),
        flushQueue (false :: oks) (m :: q) = flushQueue oks (q ++ [m]))
    ∧ (∀ (oks : List Bool) (q : List Frame),
        ((flushQueue oks q).2 ++ (flushQueue oks q).1).Perm q)
    ∧ (∀ (okb : Bool) (f : Frame) (s : ClientState), s.is_connected = true →
        (sendMsg okb f s).wire_sent
          = s.wire_sent ++ (if okb then [f] else [])
        ∧ (sendMsg okb f s).message_queue
          = s.message_queue ++ (if okb then [] else [f])) := by
  refine ⟨flushQueue_all_ok, fun oks m q => by simp [flushQueue], flushQueue_perm,
    fun okb f s hconn => ?_⟩
  cases okb with
  | true => simp [sendMsg, hconn]
  | false => simp [sendMsg, hconn]

/-- **C2 witness**: the amended statement at concrete inputs — a two-frame
queue flushes in order, and a frame sent while connected lands after the
existing wire history. -/
theorem flush_queue_fifo_amended_witness :
    flushQueue [true, true] [Frame.payload "A", Frame.payload "B"]
        = ([], [Frame.payload "A", Frame.payload "B"])
      ∧ (sendMsg true (Frame.payload "C") (initialClient true)).wire_sent
        = [Frame.payload "C"] := by
  refine ⟨flush_queue_fifo_amended.1 [Frame.payload "A", Frame.payload "B"], ?_⟩
  have h := (flush_queue_fifo_amended.2.2.2 true (Frame.payload "C") (initialClient true) rfl).1
  simpa [initialClient] using h

theorem lookupKey_eq_some_of_mem_keys {α : Type} (k : String) (l : List (String × α))
    (h : k ∈ l.map Prod.fst) : ∃ v, lookupKey k l = some v ∧ (k, v) ∈ l := by
  induction l with
  | nil => simp at h
  | cons p rest ih =>
    obtain ⟨a, b⟩ := p
    by_cases hak : a = k
    · subst hak
      exact ⟨b, by simp [lookupKey], by simp⟩
    · have h' : k = a ∨ k ∈ rest.map Prod.fst := by simpa using h
      rcases h' with h3 | h3
      · exact absurd h3.symm hak
      · obtain ⟨v, hv, hmem⟩ := ih h3
        refine ⟨v, ?_, List.mem_cons_of_mem _ hmem⟩
        simpa [lookupKey, hak] using hv

theorem mem_keys_iff_refcount_pos (l : List (String × Nat)) (hinv : RegistryInv l)
    (k : String) : k ∈ l.map Prod.fst ↔ 0 < (lookupKey k l).getD 0 := by
  constructor
  · intro h
    obtain ⟨v, hv, hmem⟩ := lookupKey_eq_some_of_mem_keys k l h
    rw [hv]
    simpa using hinv.2 (k, v) hmem
  · intro h
    rcases he : lookupKey k l with _ | v
    · rw [he] at h
      simp at h
    · exact mem_keys_of_lookupKey_some k v l he

/-- **C4.** On every successful (re)connect, the replayed subscribe frames
are exactly one per registry key — the registry's keys being precisely the
keys with positive reference count at that moment, each held once — and the
whole replay precedes the flush of the queued outbound messages, which
precedes the start of the liveness (ping) and receive loops. -/
theorem connect_replays_positive_keys_once (s : ClientState)
    (hinv : RegistryInv s.active_subscriptions) :
    connectSuccessTrace s
      = (s.active_subscriptions.map Prod.fst).map (fun k => ConnectEvent.sent (resubFrame k))
        ++ s.message_queue.map ConnectEvent.sent
        ++ [ConnectEvent.startPingLoop, ConnectEvent.startReceiveLoop]
    ∧ (s.active_subscriptions.map Prod.fst).Nodup
    ∧ (∀ k : String, k ∈ s.active_subscriptions.map Prod.fst
        ↔ 0 < (lookupKey k s.active_subscriptions).getD 0) := by
  refine ⟨?_, hinv.1, fun k => mem_keys_iff_refcount_pos _ hinv k⟩
  unfold connectSuccessTrace resubscribeAll
  rw [flushQueue_all_ok, List.map_map, List.map_map]
  rfl

/-- **C4 witness**: a registry holding `trades:BTC/USDC` (count 2) and
`user:0xabc` (count 1) with one queued ping replays exactly those two keys,
in order, before the flushed ping and the loop starts. -/
theorem connect_replays_positive_keys_once_witness :
    connectSuccessTrace
        { active_subscriptions := [("trades:BTC/USDC", 2), ("user:0xabc", 1)],
          message_queue := [Frame.ping], wire_sent := [], is_connected := true }
      = [ConnectEvent.sent (Frame.subscribeF "trades" (some "BTC/USDC") none),
         ConnectEvent.sent (Frame.subscribeF "user" none (some "0xabc")),
         ConnectEvent.sent Frame.ping,
         ConnectEvent.startPingLoop, ConnectEvent.startReceiveLoop] := by
  have h := connect_replays_positive_keys_once
      { active_subscriptions := [("trades:BTC/USDC", 2), ("user:0xabc", 1)],
        message_queue := [Frame.ping], wire_sent := [], is_connected := true }
      ⟨by decide, by decide⟩
  exact h.1.trans (by decide)

theorem initReconnectDelays_ne_nil (arg : Option (List ℚ)) :
    initReconnectDelays arg ≠ [] := by
  cases arg with
  | none => simp [initReconnectDelays]
  | some l =>
    by_cases h : l = [] <;> simp [initReconnectDelays, h]

theorem getD_length_sub_one_eq_getLast (l : List ℚ) (h : l ≠ []) :
    l.getD (l.length - 1) 0 = l.getLast h := by
  induction l with
  | nil => exact absurd rfl h
  | cons x rest ih =>
    cases rest with
    | nil => rfl
    | cons y t =>
      have h2 : (y :: t) ≠ [] := by simp
      rw [List.getLast_cons h2, ← ih h2]
      rfl

/-- **C8.** The delay before the `n`-th reconnection attempt is the `n`-th
entry of the configured delay table while `n` is in range, and the table's
last entry once `n` reaches or passes the table length; the default table is
`[1, 2, 4, 8, 16]` seconds, on which no delay ever exceeds 16. -/
theorem backoff_delay_clamped (arg : Option (List ℚ)) (n : Nat) :
    (n < (initReconnectDelays arg).length →
      backoffDelay (initReconnectDelays arg) n = (initReconnectDelays arg).getD n 0)
    ∧ ((initReconnectDelays arg).length ≤ n →
      backoffDelay (initReconnectDelays arg) n
        = (initReconnectDelays arg).getLast (initReconnectDelays_ne_nil arg))
    ∧ initReconnectDelays none = [1, 2, 4, 8, 16]
    ∧ backoffDelay (initReconnectDelays none) n ≤ 16 := by
  refine ⟨fun h => ?_, fun h => ?_, rfl, ?_⟩
  · have hm : min n ((initReconnectDelays arg).length - 1) = n ∨
        min n ((initReconnectDelays arg).length - 1)
          = (initReconnectDelays arg).length - 1 := by omega
    unfold backoffDelay
    rcases hm with hm | hm
    · rw [hm]
    · have : min n ((initReconnectDelays arg).length - 1) = n := by omega
      rw [this]
  · have hpos : 0 < (initReconnectDelays arg).length :=
      List.length_pos.2 (initReconnectDelays_ne_nil arg)
    have hm : min n ((initReconnectDelays arg).length - 1)
        = (initReconnectDelays arg).length - 1 := by omega
    unfold backoffDelay
    rw [hm, getD_length_sub_one_eq_getLast]
  · have hb : backoffDelay (initReconnectDelays none) n
        = ([1, 2, 4, 8, 16] : List ℚ).getD (min n 4) 0 := rfl
    have hm : min n 4 = 0 ∨ min n 4 = 1 ∨ min n 4 = 2 ∨ min n 4 = 3 ∨ min n 4 = 4 := by
      omega
    rcases hm with h | h | h | h | h <;> rw [hb, h] <;> decide

/-- **C8 witness**: on the default table, attempt 2 waits 4 seconds and
attempt 100 waits the clamped last entry, 16 seconds. -/
theorem backoff_delay_clamped_witness :
    backoffDelay (initReconnectDelays none) 2 = 4
      ∧ backoffDelay (initReconnectDelays none) 100 = 16 := by
  constructor
  · have h := (backoff_delay_clamped none 2).1 (by decide)
    rw [h]
    decide
  · have h := (backoff_delay_clamped none 100).2.1 (by decide)
    rw [h]
    decide

/-- **C3 (code bug).** `close` does *not* prevent every subsequent connect:
when the initial connect fails and `close` runs while the backoff sleep is
pending, the task is still sleeping after `close` (`_reconnect_task` held no
handle to cancel), the sleep elapses, and a new `websockets.connect` attempt
begins after the shutdown — `_should_reconnect` is already `false`, yet
`connect_calls` grows. -/
theorem connect_attempt_after_close :
    (runReconnect [RAction.connectFail, RAction.schedProceed,
        RAction.closeCall]).should_reconnect = false
      ∧ (runReconnect [RAction.connectFail, RAction.schedProceed,
          RAction.closeCall]).auto_pc = TaskPC.sleeping
      ∧ (runReconnect [RAction.connectFail, RAction.schedProceed, RAction.closeCall,
            RAction.sleepElapse]).connect_calls
        = (runReconnect [RAction.connectFail, RAction.schedProceed,
            RAction.closeCall]).connect_calls + 1 := by
  decide

theorem runHandler_length (msg_type : String) (msg : InMessage)
    (h : InMessage → Except String Unit) :
    (runHandler msg_type msg h).length = if raisedOn (h msg) then 1 else 0 := by
  unfold runHandler raisedOn
  rcases h msg with a | e <;> rfl

theorem dispatchHandlers_spec (msg_type : String) (msg : InMessage)
    (hs : List (InMessage → Except String Unit)) :
    (dispatchHandlers msg_type msg hs).1 = hs.length
    ∧ (dispatchHandlers msg_type msg hs).2.length
      = hs.countP (fun h => raisedOn (h msg)) := by
  induction hs with
  | nil => simp [dispatchHandlers]
  | cons h hs ih =>
    constructor
    · simp [dispatchHandlers, ih.1]
    · simp only [dispatchHandlers, List.length_append, ih.2, List.countP_cons,
        runHandler_length]
      exact Nat.add_comm _ _

/-- **C7.** For every non-pong inbound message whose (truthy) type tag has
registered handlers, the dispatch step invokes *all* of them — a raising
handler does not stop the remaining ones — and each raising handler
produces exactly one error-log entry; `handleMessage` being a total
function, no handler exception propagates out of the dispatch step or can
end the receive loop. -/
theorem handler_errors_isolated
    (handlers : List (String × List (InMessage → Except String Unit)))
    (msg : InMessage) (t : String) (hs : List (InMessage → Except String Unit))
    (htype : msg.type = some t) (hpong : t ≠ "pong") (hne : t ≠ "")
    (hlook : lookupKey t handlers = some hs) :
    (handleMessage handlers msg).invoked = hs.length
    ∧ (handleMessage handlers msg).log.length
      = hs.countP (fun h => raisedOn (h msg)) := by
  have hd := dispatchHandlers_spec t msg hs
  simp only [handleMessage, htype]
  rw [if_neg hpong, if_neg hne, hlook]
  exact ⟨hd.1, hd.2⟩

/-- **C7 witness**: two handlers under `"trade"`, the first raising — both
are invoked and exactly one error is logged. -/
theorem handler_errors_isolated_witness :
    (handleMessage
        [("trade", [fun _ => Except.error "boom", fun _ => Except.ok ()])]
        { type := some "trade", body := "x" }).invoked = 2
    ∧ (handleMessage
        [("trade", [fun _ => Except.error "boom", fun _ => Except.ok ()])]
        { type := some "trade", body := "x" }).log.length = 1 := by
  have h := handler_errors_isolated
      [("trade", [fun _ => Except.error "boom", fun _ => Except.ok ()])]
      { type := some "trade", body := "x" } "trade"
      [fun _ => Except.error "boom", fun _ => Except.ok ()]
      rfl (by decide) (by decide) rfl
  exact ⟨h.1.trans rfl, h.2.trans rfl⟩

theorem cache_flag_eq_markedSinceClear (ops : List CacheOp) : ∀ c : CacheState,
    (ops.foldl applyCacheOp c).initialized
      = ops.foldl
          (fun b op =>
            match op with
            | CacheOp.markInitializedOp => true
            | CacheOp.clearOp => false
            | _ => b)
          c.initialized := by
  induction ops with
  | nil => intro c; rfl
  | cons op ops ih =>
    intro c
    cases op <;>
      simp [List.foldl_cons, applyCacheOp, CacheState.set_tokens, CacheState.set_markets,
        CacheState.mark_initialized, CacheState.clear, ih]

/-- **C10.** After any call history, `is_ready` is true iff
`mark_initialized` has been called since the last `clear` *and* at least
one token *and* at least one market are cached; `mark_initialized` on a
cache missing tokens or markets leaves `is_ready` false, and `clear`
always makes `is_ready` false. -/
theorem cache_ready_characterization (ops : List CacheOp) :
    ((runCacheOps ops).is_ready = true
      ↔ markedSinceClear ops = true
        ∧ (runCacheOps ops).tokens_cache ≠ [] ∧ (runCacheOps ops).markets_cache ≠ [])
    ∧ (∀ c : CacheState, c.tokens_cache = [] ∨ c.markets_cache = [] →
        c.mark_initialized.is_ready = false)
    ∧ (∀ c : CacheState, c.clear.is_ready = false) := by
  refine ⟨?_, ?_, ?_⟩
  · have hflag : (runCacheOps ops).initialized = markedSinceClear ops :=
      cache_flag_eq_markedSinceClear ops CacheState.empty
    simp [CacheState.is_ready, hflag, List.length_pos, and_assoc]
  · intro c h
    rcases h with h | h <;> simp [CacheState.is_ready, CacheState.mark_initialized, h]
  · intro c
    simp [CacheState.is_ready, CacheState.clear]

/-- **C10 witness**: `mark_initialized` on the fresh (empty) cache leaves it
not ready, and `clear` leaves any cache not ready. -/
theorem cache_ready_characterization_witness :
    CacheState.empty.mark_initialized.is_ready = false
      ∧ CacheState.empty.mark_initialized.clear.is_ready = false := by
  refine ⟨(cache_ready_characterization []).2.1 CacheState.empty (Or.inl rfl), ?_⟩
  exact (cache_ready_characterization []).2.2 CacheState.empty.mark_initialized

/-- **C9.** A trade message matching an `on_trades` subscription, dispatched
while the reference cache is not ready, never reaches the user handler: no
value is delivered (the enhancement step is not even entered, so no partial
data exists), exactly one warning is logged, and — `tradeHandler` being a
total function — no error propagates. -/
theorem trade_dropped_when_cache_not_ready {α : Type} (cache : CacheState)
    (market_id : String) (msg : WsInbound) (enhanceResult : Except String α)
    (htype : msg.type = some "trade") (hmkt : msg.trade_market_id = some market_id)
    (hready : cache.is_ready = false) :
    tradeHandler cache market_id msg enhanceResult
      = (none, [(LogLevel.warn, "Trade received before cache initialized, skipping")]) := by
  simp [tradeHandler, htype, hmkt, hready]

/-- **C9 witness**: a matching trade for `BTC/USDC` against the fresh
(unpopulated) cache is dropped with one warning, even though enhancement
would have succeeded. -/
theorem trade_dropped_when_cache_not_ready_witness :
    tradeHandler CacheState.empty "BTC/USDC"
        { type := some "trade", trade_market_id := some "BTC/USDC" }
        (Except.ok (7 : Nat))
      = (none, [(LogLevel.warn, "Trade received before cache initialized, skipping")]) :=
  trade_dropped_when_cache_not_ready CacheState.empty "BTC/USDC"
    { type := some "trade", trade_market_id := some "BTC/USDC" }
    (Except.ok (7 : Nat)) rfl rfl rfl

theorem truncToInt_intCast (a : Int) : truncToInt ((a : ℚ)) = a := by
  unfold truncToInt
  simp [Rat.num_intCast, Rat.den_intCast]

theorem num_den_of_div (a b : Nat) (hb : 0 < b) (hcop : Nat.Coprime a b) :
    ((a : ℚ) / (b : ℚ)).num = (a : Int) ∧ ((a : ℚ) / (b : ℚ)).den = b := by
  have hb0 : (0 : Int) < (b : Int) := by exact_mod_cast hb
  have hcop0 : Nat.Coprime ((a : Int)).natAbs ((b : Int)).natAbs := by
    simpa [Int.natAbs_ofNat] using hcop
  have hcast : ((a : ℚ) / (b : ℚ)) = (((a : Int) : ℚ) / ((b : Int) : ℚ)) := by
    push_cast
    ring
  constructor
  · rw [hcast]
    exact Rat.num_div_eq_of_coprime hb0 hcop0
  · rw [hcast]
    exact_mod_cast Rat.den_div_eq_of_coprime hb0 hcop0

theorem decimalRound28_of_div (a b : Nat) (ha : 0 < a) (hb : 0 < b)
    (hcop : Nat.Coprime a b) :
    decimalRound28 ((a : ℚ) / (b : ℚ)) = decimal28ND a b := by
  obtain ⟨h1, h2⟩ := num_den_of_div a b hb hcop
  have hpos : (0 : ℚ) < (a : ℚ) / (b : ℚ) := by positivity
  rw [decimalRound28, if_neg hpos.ne', if_neg (not_lt.2 hpos.le), h1, h2, Int.natAbs_ofNat]

theorem floatRoundNearest_of_div (a b : Nat) (ha : 0 < a) (hb : 0 < b)
    (hcop : Nat.Coprime a b) :
    floatRoundNearest ((a : ℚ) / (b : ℚ)) = float64ND a b := by
  obtain ⟨h1, h2⟩ := num_den_of_div a b hb hcop
  have hpos : (0 : ℚ) < (a : ℚ) / (b : ℚ) := by positivity
  rw [floatRoundNearest, if_neg hpos.ne', if_neg (not_lt.2 hpos.le), h1, h2, Int.natAbs_ofNat]

theorem decimal28ND_eval (n d : Nat) (k m : Int)
    (hk : findExpND 10 400 n d 0 = k)
    (hj : 0 ≤ 27 - k)
    (hm : roundHalfEvenND ((n : Int) * (10 : Int) ^ (27 - k).toNat) d = m) :
    decimal28ND n d = (m : ℚ) * (10 : ℚ) ^ (k - 27) := by
  simp only [decimal28ND, hk]
  rw [if_pos hj, hm]

theorem float64ND_eval (n d : Nat) (e m : Int)
    (he : findExpND 2 1100 n d 0 = e)
    (hj : 0 ≤ 52 - e)
    (hm : roundHalfEvenND ((n : Int) * (2 : Int) ^ (52 - e).toNat) d = m) :
    float64ND n d = (m : ℚ) * (2 : ℚ) ^ (e - 52) := by
  simp only [float64ND, he]
  rw [if_pos hj, hm]

/-- **C5 counterexample.** At token precision N = 18 (inside the claim's
"every token precision N") and amount 0.1 — one fractional digit, so at
most 18 — the atoms are exact (`10^17`) and the Decimal quotient on the way
back is exactly 0.1 (both fit the 28-digit context), but the final
`float()` cast returns `7205759403792794 / 2^56`: the displayed value
exceeds 0.1 by more than half of `10^-18`, and read at 18 decimal places it
is 0.100000000000000006 — the round trip does not yield the original
amount to N-decimal precision. -/
theorem atoms_display_roundtrip_fails_at_float :
    to_atoms (1 / 10 : ℚ) 18 = 100000000000000000
      ∧ to_display_value 100000000000000000 18
        = 7205759403792794 / 72057594037927936
      ∧ to_display_value 100000000000000000 18 ≠ (1 / 10 : ℚ)
      ∧ (1 / (2 * 10 ^ 18) : ℚ) < to_display_value 100000000000000000 18 - 1 / 10
      ∧ roundHalfEven (to_display_value 100000000000000000 18 * 10 ^ 18)
        = 100000000000000006 := by
  have hdec17 : decimalRound28 ((100000000000000000 : Int) : ℚ)
      = ((100000000000000000 : Int) : ℚ) := by
    have hb : (((100000000000000000 : Int)) : ℚ)
        = (((100000000000000000 : Nat) : ℚ) / ((1 : Nat) : ℚ)) := by norm_num
    rw [hb,
      decimalRound28_of_div 100000000000000000 1 (by norm_num) (by norm_num) (by norm_num),
      decimal28ND_eval 100000000000000000 1 17 (10 ^ 27) (by decide) (by decide) (by decide)]
    norm_num
  have hdectenth : decimalRound28 ((1 : ℚ) / 10) = (1 : ℚ) / 10 := by
    have hb : ((1 : ℚ) / 10) = (((1 : Nat) : ℚ) / ((10 : Nat) : ℚ)) := by norm_num
    rw [hb, decimalRound28_of_div 1 10 (by norm_num) (by norm_num) (by norm_num),
      decimal28ND_eval 1 10 (-1) (10 ^ 27) (by decide) (by decide) (by decide)]
    norm_num
  have hfl : floatRoundNearest ((1 : ℚ) / 10) = 7205759403792794 / 72057594037927936 := by
    have hb : ((1 : ℚ) / 10) = (((1 : Nat) : ℚ) / ((10 : Nat) : ℚ)) := by norm_num
    rw [hb, floatRoundNearest_of_div 1 10 (by norm_num) (by norm_num) (by norm_num),
      float64ND_eval 1 10 (-4) 7205759403792794 (by decide) (by decide) (by decide)]
    norm_num
  have hatoms : to_atoms (1 / 10 : ℚ) 18 = 100000000000000000 := by
    unfold to_atoms
    have harg : (1 / 10 : ℚ) * (10 : ℚ) ^ (18 : Nat) = ((100000000000000000 : Int) : ℚ) := by
      push_cast
      norm_num
    rw [harg, hdec17, truncToInt_intCast]
  have hdisp : to_display_value 100000000000000000 18
      = 7205759403792794 / 72057594037927936 := by
    unfold to_display_value to_display_decimal
    have hq : (((100000000000000000 : Int)) : ℚ) / (10 : ℚ) ^ (18 : Nat) = (1 : ℚ) / 10 := by
      push_cast
      norm_num
    rw [hq, hdectenth, hfl]
  refine ⟨hatoms, hdisp, ?_, ?_, ?_⟩
  · rw [hdisp]
    norm_num
  · rw [hdisp]
    norm_num
  · rw [hdisp]
    have hfloor : ⌊(7205759403792794 / 72057594037927936 : ℚ) * 10 ^ 18⌋
        = 100000000000000005 :=
      Int.floor_eq_iff.mpr ⟨by norm_num, by norm_num⟩
    simp only [roundHalfEven, hfloor]
    norm_num

/-- **C5 (amended).** A decimal amount with at most `N` fractional digits —
a rational `v = a / 10^N` for an integer `a` — whose scaled value `a` and
whose quotient `v` are exactly representable in the 28-significant-digit
Decimal context converts to exactly the atoms `a`; converting back, the
Decimal stage recovers exactly `v`, and the final `float()` cast returns
the binary64 nearest `v`.  The full round trip therefore returns `v`
itself, to any precision, whenever `v` is binary64-representable (as the
spec's example 110000.50 is); for other amounts the only deviation is that
final binary rounding, which can exceed N-decimal precision once `10^-N`
is below half a float ulp of the amount (N = 18, amount 0.1). -/
theorem atoms_display_roundtrip_amended (v : ℚ) (N : Nat) (a : Int)
    (h : v = (a : ℚ) / (10 : ℚ) ^ N)
    (hprod : decimalRound28 ((a : ℚ)) = ((a : ℚ)))
    (hquot : decimalRound28 v = v) :
    to_atoms v N = a
    ∧ to_display_decimal a N = v
    ∧ to_display_value a N = floatRoundNearest v
    ∧ (floatRoundNearest v = v → to_display_value a N = v) := by
  have h10 : ((10 : ℚ) ^ N) ≠ 0 := by positivity
  have hv : v * (10 : ℚ) ^ N = (a : ℚ) := by
    rw [h]
    field_simp
  have hta : to_atoms v N = a := by
    unfold to_atoms
    rw [hv, hprod, truncToInt_intCast]
  have hdd : to_display_decimal a N = v := by
    unfold to_display_decimal
    rw [← h, hquot]
  refine ⟨hta, hdd, ?_, ?_⟩
  · unfold to_display_value
    rw [hdd]
  · intro hfl
    unfold to_display_value
    rw [hdd, hfl]

/-- **C5 witness**: the spec's example end to end — `"110000.50"` parses to
the exact rational `110000.50`; at 6 decimals the atoms are `110000500000`
(both stages fit the 28-digit context), and the display conversion returns
exactly `110000.50`, which is binary64-representable. -/
theorem atoms_display_roundtrip_amended_witness :
    parseDecimal "110000.50" = some (110000.50 : ℚ)
      ∧ to_atoms (110000.50 : ℚ) 6 = 110000500000
      ∧ to_display_value 110000500000 6 = (110000.50 : ℚ) := by
  have h50 : (110000.50 : ℚ) = 220001 / 2 := by norm_num
  have hquot : decimalRound28 (110000.50 : ℚ) = (110000.50 : ℚ) := by
    rw [h50]
    have hb : ((220001 : ℚ) / 2) = (((220001 : Nat) : ℚ) / ((2 : Nat) : ℚ)) := by norm_num
    rw [hb, decimalRound28_of_div 220001 2 (by norm_num) (by norm_num) (by norm_num),
      decimal28ND_eval 220001 2 5 (1100005 * 10 ^ 21) (by decide) (by decide) (by decide)]
    norm_num
  have hprod : decimalRound28 (((110000500000 : Int)) : ℚ)
      = (((110000500000 : Int)) : ℚ) := by
    have hb : (((110000500000 : Int)) : ℚ)
        = (((110000500000 : Nat) : ℚ) / ((1 : Nat) : ℚ)) := by norm_num
    rw [hb, decimalRound28_of_div 110000500000 1 (by norm_num) (by norm_num) (by norm_num),
      decimal28ND_eval 110000500000 1 11 (1100005 * 10 ^ 21) (by decide) (by decide) (by decide)]
    norm_num
  have hfl : floatRoundNearest (110000.50 : ℚ) = (110000.50 : ℚ) := by
    rw [h50]
    have hb : ((220001 : ℚ) / 2) = (((220001 : Nat) : ℚ) / ((2 : Nat) : ℚ)) := by norm_num
    rw [hb, floatRoundNearest_of_div 220001 2 (by norm_num) (by norm_num) (by norm_num),
      float64ND_eval 220001 2 16 (220001 * 2 ^ 35) (by decide) (by decide) (by decide)]
    norm_num
  have h := atoms_display_roundtrip_amended (110000.50 : ℚ) 6 110000500000
      (by rw [h50]; push_cast; norm_num) hprod hquot
  have hp : parseDecimal "110000.50"
      = some ((110000 : ℚ) + (50 : ℚ) / (10 : ℚ) ^ 2) := rfl
  refine ⟨?_, h.1, h.2.2.2 hfl⟩
  rw [hp]
  norm_num

end ExchangeSDK
